import Mathlib

/-!
Verification of the Sticker Booth session/job manager (src/main.py).

The development shallowly embeds the parts of `main.py` the claims are
about: the per-session dict kept in the process-wide `STORE`, the
HTTP-facing handlers (`get_sid`, `purge_expired`, `api_gen_status`,
`api_gen_cancel`, `api_generate_multi_start`, `print_direct`, `reset`)
and the background worker `_run_multi_generation`.

Bytes are `List Nat`, timestamps are `Int`, Python dict keys that may be
absent are `Option` fields.  The external OpenAI call is an oracle
`Nat → Except String (List Nat)` giving, per step, either the decoded
image bytes or the text of the exception raised (covering API errors and
the `RuntimeError "No image returned from model"` path alike).
-/

/-- One per-session dict stored in `STORE` (main.py line 38).  Each field is
one dict key the code uses; `none` means the key is absent. -/
structure Session where
  captured_image : Option (List Nat) := none
  captured_mime : Option String := none
  selected_style : Option String := none
  selected_prompt : Option String := none
  gen_status : Option String := none
  gen_progress : Option Nat := none
  gen_error : Option String := none
  generated_images : Option (List (List Nat)) := none
  generated_mime : Option String := none
  approved_images : Option (List (List Nat)) := none
  approved_mime : Option String := none
  ts : Option Int := none
deriving Repr, DecidableEq

/-- The process-wide `STORE : dict[str, dict]`, as a map from session id to
session dict. -/
def Store : Type := String → Option Session

/-- An empty `STORE`. -/
def emptyStore : Store := fun _ => none

/-- `get_sid` (main.py 112-120): ensure a backing dict exists for the sid,
creating an empty one when absent.  (The cookie-side sid allocation is
elided; the sid is taken as given.) -/
def get_sid (store : Store) (sid : String) : Store :=
  if (store sid).isSome then store
  else fun x => if x = sid then some {} else store x

/-- `purge_expired` (main.py 43-52): drop every session whose
`now - ts > SESSION_TTL_SECONDS`; a session without a `ts` key reads as
`ts = now` and is kept. -/
def purge_expired (now ttl : Int) (store : Store) : Store :=
  fun sid =>
    match store sid with
    | none => none
    | some s => if now - (s.ts.getD now) > ttl then none else some s

/-- The JSON body returned by `/api/gen-status` (main.py 358-363). -/
structure PollResp where
  ok : Bool
  status : String
  progress : Nat
  error : Option String
deriving Repr, DecidableEq

/-- `/api/gen-status` handler (main.py 353-363), including its `get_sid`
call: returns the refreshed store and the status/progress/error triple with
the code's defaults `"idle"`, `0`, `None`. -/
def api_gen_status (store : Store) (sid : String) : Store × PollResp :=
  let store2 := get_sid store sid
  let s := (store2 sid).getD {}
  (store2, ⟨true, s.gen_status.getD "idle", s.gen_progress.getD 0, s.gen_error⟩)

/-- A generic `jsonify(...), code` response of the JSON API handlers. -/
structure ApiResp where
  ok : Bool
  error : Option String
  httpCode : Nat
deriving Repr, DecidableEq

/-- Python truthiness of an optional bytes value (`not img`). -/
def pyFalsyBytes : Option (List Nat) → Bool
  | none => true
  | some b => b.isEmpty

/-- Python truthiness of an optional string value (`not style_key`). -/
def pyFalsyStr : Option String → Bool
  | none => true
  | some s => s.isEmpty

/-- Prompt normalization in `api_generate_multi_start` (main.py 329-330):
pad with four empty strings and keep the first four. -/
def normalizePrompts (ps : List String) : List String :=
  (ps ++ ["", "", "", ""]).take 4

/-- `/api/generate-multi-start` (main.py 313-348) acting on the session dict
of the requesting sid: on missing image/style/base-prompt it returns the
`"Missing input"` 400 response and leaves the dict unchanged; otherwise it
initializes `gen_status/gen_progress/gen_error` and reports success (the
spawned thread is modelled separately by `Config`/`wstep`). -/
def api_generate_multi_start (s : Session) (prompts : List String) :
    Session × ApiResp :=
  let _user_prompts := normalizePrompts prompts
  if pyFalsyBytes s.captured_image || pyFalsyStr s.selected_style ||
      pyFalsyStr s.selected_prompt then
    (s, ⟨false, some "Missing input", 400⟩)
  else
    ({ s with gen_status := some "queued", gen_progress := some 0,
              gen_error := none },
     ⟨true, none, 200⟩)

/-- The `store.pop(key, None)` loop run by `print_direct` on a successful
print (main.py 476-481).  Exactly the keys in the code's list are cleared;
`captured_mime` is not in that list and is untouched. -/
def popPrintKeys (s : Session) : Session :=
  { s with captured_image := none, generated_images := none,
           approved_images := none, selected_style := none,
           selected_prompt := none, generated_mime := none,
           approved_mime := none, ts := none, gen_status := none,
           gen_progress := none, gen_error := none }

/-- The store effect of the success path of `/print-direct`
(main.py 444-482): ensure the session exists (`get_sid`), run `lp`
successfully, then pop the listed keys from the session dict, which stays
in the store. -/
def print_direct_success (store : Store) (sid : String) : Store :=
  let store2 := get_sid store sid
  let s := (store2 sid).getD {}
  fun x => if x = sid then some (popPrintKeys s) else store2 x

/-- `/reset` (main.py 494-501): hard-delete the session entry. -/
def reset_route (store : Store) (sid : String) : Store :=
  fun x => if x = sid then none else store x

/- ------------------------------------------------------------------ -/
/- Claims C7, C8, C9, C10: store-level handlers.                       -/
/- ------------------------------------------------------------------ -/

/-- Claim C7 (confirmed): a session whose recorded last-activity timestamp
is older than the TTL (`now - ts > ttl`) is removed by `purge_expired`;
consequently a `get_sid` with the same token finds nothing and creates a
fresh empty session, and a poll returns the idle defaults rather than any
stale data. -/
theorem C7_purge_expired_evicts (store : Store) (sid : String) (s : Session)
    (t now ttl : Int) (hs : store sid = some s) (ht : s.ts = some t)
    (hold : now - t > ttl) :
    purge_expired now ttl store sid = none ∧
    get_sid (purge_expired now ttl store) sid sid = some {} ∧
    (api_gen_status (purge_expired now ttl store) sid).2 =
      ⟨true, "idle", 0, none⟩ := by
  have hp : purge_expired now ttl store sid = none := by
    simp only [purge_expired, hs, ht, Option.getD_some]
    simp [hold]
  refine ⟨hp, ?_, ?_⟩
  · simp [get_sid, hp]
  · simp [api_gen_status, get_sid, hp]

/-- Claim C7 witness: a concrete stale session is evicted and replaced by a
fresh one. -/
theorem C7_purge_expired_evicts_witness :
    purge_expired 700 600 (fun x => if x = "t" then some { ts := some 0 } else none) "t" = none ∧
    get_sid (purge_expired 700 600 (fun x => if x = "t" then some { ts := some 0 } else none)) "t" "t" = some {} ∧
    (api_gen_status (purge_expired 700 600 (fun x => if x = "t" then some { ts := some 0 } else none)) "t").2 =
      ⟨true, "idle", 0, none⟩ :=
  C7_purge_expired_evicts
    (fun x => if x = "t" then some { ts := some 0 } else none) "t"
    { ts := some 0 } 0 700 600 (by simp) rfl (by norm_num)

/-- Claim C8 as stated: polling never mutates the store (pointwise on
entries). -/
def claimC8Prop : Prop :=
  ∀ (store : Store) (sid x : String), (api_gen_status store sid).1 x = store x

/-- Claim C8 counterexample: polling a token with no session entry creates
an empty entry under that token (`get_sid` inside `api_gen_status`), so the
poll is not a pure read of the store. -/
theorem C8_poll_not_pure_counterexample : ¬ claimC8Prop := by
  intro h
  exact absurd (h emptyStore "t" "t") (by decide)

/-- Claim C8 (corrected): when the session exists, polling is a pure read —
the store is returned unchanged — and the response is the well-formed
triple built from the session's fields with defaults `"idle"`, `0`, no
error.  (When the token has no entry, `get_sid` first creates an empty
session; the response is then the idle default.) -/
theorem C8_poll_pure_when_present (store : Store) (sid : String) (s : Session)
    (hs : store sid = some s) :
    api_gen_status store sid =
      (store, ⟨true, s.gen_status.getD "idle", s.gen_progress.getD 0,
               s.gen_error⟩) := by
  simp [api_gen_status, get_sid, hs]

/-- Claim C8 witness: polling an existing (empty) session mutates nothing
and returns the idle defaults. -/
theorem C8_poll_pure_when_present_witness :
    api_gen_status (fun x => if x = "t" then some {} else none) "t" =
      ((fun x => if x = "t" then some {} else none), ⟨true, "idle", 0, none⟩) :=
  C8_poll_pure_when_present (fun x => if x = "t" then some {} else none) "t" {}
    (by simp)

/-- Claim C9 (confirmed): starting a job while the captured image, the
selected style, or the base prompt is absent from the session returns the
`"Missing input"` 400 response and leaves the session dict — in particular
any pre-existing `gen_status`/`gen_progress`/`gen_error` — unchanged. -/
theorem C9_missing_input_no_mutation (s : Session) (prompts : List String)
    (h : s.captured_image = none ∨ s.selected_style = none ∨
         s.selected_prompt = none) :
    api_generate_multi_start s prompts = (s, ⟨false, some "Missing input", 400⟩) := by
  rcases h with h | h | h <;>
    simp [api_generate_multi_start, pyFalsyBytes, pyFalsyStr, h]

/-- Claim C9 witness: starting with no style selected (but a prior failed
job recorded) rejects and leaves the old job fields in place. -/
theorem C9_missing_input_no_mutation_witness :
    api_generate_multi_start
      { captured_image := some [1], captured_mime := some "image/png",
        gen_status := some "error", gen_progress := some 25,
        gen_error := some "boom" } ["x"] =
      ({ captured_image := some [1], captured_mime := some "image/png",
         gen_status := some "error", gen_progress := some 25,
         gen_error := some "boom" }, ⟨false, some "Missing input", 400⟩) :=
  C9_missing_input_no_mutation
    { captured_image := some [1], captured_mime := some "image/png",
      gen_status := some "error", gen_progress := some 25,
      gen_error := some "boom" } ["x"] (Or.inr (Or.inl rfl))

/-- Claim C10 as stated: a successful direct print deletes the session
entry, exactly as `/reset` does. -/
def claimC10Prop : Prop :=
  ∀ (store : Store) (sid : String), print_direct_success store sid sid = none

/-- Claim C10 counterexample: after a successful print the session entry is
still present — with its `captured_mime` field intact — whereas `/reset`
deletes the entry. -/
theorem C10_print_not_hard_delete_counterexample : ¬ claimC10Prop := by
  intro h
  exact absurd
    (h (fun x => if x = "t" then some { captured_mime := some "image/png" } else none) "t")
    (by decide)

/-- Claim C10 (corrected): a successful direct print does not delete the
session entry; it pops the keys in the code's list (image bytes, results,
style, prompt, mimes, timestamp, job fields) but keeps the entry in the
store, and the `captured_mime` field — absent from the pop list — survives
unchanged.  `/reset` by contrast removes the entry. -/
theorem C10_print_pops_keys_keeps_entry (store : Store) (sid : String) :
    print_direct_success store sid sid =
      some (popPrintKeys (((get_sid store sid) sid).getD {})) ∧
    (popPrintKeys (((get_sid store sid) sid).getD {})).captured_image = none ∧
    (popPrintKeys (((get_sid store sid) sid).getD {})).generated_images = none ∧
    (popPrintKeys (((get_sid store sid) sid).getD {})).approved_images = none ∧
    (popPrintKeys (((get_sid store sid) sid).getD {})).captured_mime =
      (((get_sid store sid) sid).getD {}).captured_mime ∧
    reset_route store sid sid = none := by
  refine ⟨?_, rfl, rfl, rfl, rfl, ?_⟩
  · simp [print_direct_success]
  · simp [reset_route]

/- ------------------------------------------------------------------ -/
/- Trace model of the background worker `_run_multi_generation`        -/
/- (main.py 224-308) interleaved with the cancel/poll/reset handlers.  -/
/- ------------------------------------------------------------------ -/

/-- Program counter of the worker thread, one constructor per atomic group
of statements of `_run_multi_generation`:
`init` = lines 233-235 (status `running`, progress 0, clear error);
`check i` = line 246 (re-read `STORE.get(sid, {}).get("gen_status")`,
stop if `"canceled"`); `call i` = lines 258-293 (external call, base64
extraction/decode, local append — or raise); `prog i` = line 296
(`STORE[sid]["gen_progress"] = ...`, `KeyError` if the sid is gone);
`publish` = lines 299-302 (stage `generated_*`/`approved_*` on the
captured dict); `finish` = lines 303-304 (status `done`, refresh `ts`);
`fail msg` = lines 305-308 (the `except` handler); `halted` = thread
exit. -/
inductive WPC where
  | init
  | check (i : Nat)
  | call (i : Nat)
  | prog (i : Nat)
  | publish
  | finish
  | fail (msg : String)
  | halted
deriving Repr, DecidableEq

/-- Interleaved atomic actions on one session's state: `w` = the worker
executes its next atomic group; `cancel` = `/api/gen-cancel`
(main.py 365-371); `poll` = `/api/gen-status` (a read, but its `get_sid`
re-creates a missing entry); `remove` = the entry for the sid leaves the
store (`/reset` line 499 or eviction by `purge_expired`). -/
inductive Act where
  | w
  | cancel
  | poll
  | remove
deriving Repr, DecidableEq

/-- Global state for one session id and one worker thread, modelling the
system from line 233 onwards: the worker's line-231 capture
`store = STORE.get(sid, {})` is taken as already resolved to the dict the
start handler wrote, held in `d0`.  (This base model is adequate for the
claims whose statements begin past the capture; the capture itself becomes
a schedulable step in the extended model `XConfig` below, which matters
when the session entry can be removed before the worker's first
statement.)  `d1` is the fresh dict `get_sid` creates if the entry is
removed and the id is touched again.  `storeTarget` says what `STORE[sid]`
currently is: `none` = no entry, `some false` = the captured dict `d0`,
`some true` = the re-created dict `d1`.  `ext` is the external-call
oracle, `images` the worker-local `images_out`, `calls` a ghost counter of
external calls dispatched. -/
structure Config where
  ext : Nat → Except String (List Nat)
  sid : String
  now : Int
  d0 : Session
  d1 : Session
  storeTarget : Option Bool
  wpc : WPC
  images : List (List Nat)
  calls : Nat

/-- `int(((i + 1) / 4) * 100)` at main.py 296. -/
def progressAfter (i : Nat) : Nat := ((i + 1) * 100) / 4

/-- `str(e)` for the `KeyError` raised by `STORE[sid]` when the sid is
absent: Python renders it as the repr of the missing key. -/
def keyErrorText (sid : String) : String := "'" ++ sid ++ "'"

/-- One atomic group of the worker thread (see `WPC`). -/
def wstep (c : Config) : Config :=
  match c.wpc with
  | .init =>
      { c with
          d0 := { c.d0 with
                    gen_status := some "running",
                    gen_progress := some 0,
                    gen_error := none },
          wpc := .check 0 }
  | .check i =>
      if (match c.storeTarget with
          | none => (none : Option String)
          | some false => c.d0.gen_status
          | some true => c.d1.gen_status) = some "canceled" then
        { c with wpc := .halted }
      else
        { c with wpc := .call i }
  | .call i =>
      match c.ext i with
      | .ok b =>
          { c with
              images := c.images ++ [b],
              calls := c.calls + 1,
              wpc := .prog i }
      | .error msg => { c with calls := c.calls + 1, wpc := .fail msg }
  | .prog i =>
      match c.storeTarget with
      | none => { c with wpc := .fail (keyErrorText c.sid) }
      | some false =>
          { c with
              d0 := { c.d0 with gen_progress := some (progressAfter i) },
              wpc := if i + 1 < 4 then .check (i + 1) else .publish }
      | some true =>
          { c with
              d1 := { c.d1 with gen_progress := some (progressAfter i) },
              wpc := if i + 1 < 4 then .check (i + 1) else .publish }
  | .publish =>
      { c with
          d0 := { c.d0 with
                    generated_images := some c.images,
                    generated_mime := some "image/png",
                    approved_images := some c.images,
                    approved_mime := some "image/png" },
          wpc := .finish }
  | .finish =>
      { c with
          d0 := { c.d0 with gen_status := some "done", ts := some c.now },
          wpc := .halted }
  | .fail msg =>
      { c with
          d0 := { c.d0 with
                    gen_status := some "error",
                    gen_error := some msg },
          wpc := .halted }
  | .halted => c

/-- The `get_sid` call every handler makes: when the entry is missing,
install a fresh empty dict under the sid. -/
def ensureSid (c : Config) : Config :=
  match c.storeTarget with
  | none => { c with d1 := {}, storeTarget := some true }
  | some _ => c

/-- `s["gen_status"] = "canceled"` on the current `STORE[sid]` dict
(main.py 370). -/
def setCanceled (c : Config) : Config :=
  match c.storeTarget with
  | none => c
  | some false => { c with d0 := { c.d0 with gen_status := some "canceled" } }
  | some true => { c with d1 := { c.d1 with gen_status := some "canceled" } }

/-- Interleaved small step. -/
def astep (c : Config) : Act → Config
  | .w => wstep c
  | .cancel => setCanceled (ensureSid c)
  | .poll => ensureSid c
  | .remove => { c with storeTarget := none }

/-- Run a schedule of interleaved actions. -/
def run (c : Config) (sched : List Act) : Config := sched.foldl astep c

/-- The dict currently stored under the session id, if any. -/
def curSess (c : Config) : Option Session :=
  match c.storeTarget with
  | none => none
  | some false => some c.d0
  | some true => some c.d1

/-- The `status` field a poll of the current state returns
(`s.get("gen_status", "idle")` over `STORE.get(sid, {})`). -/
def statusView (c : Config) : String :=
  ((curSess c).getD {}).gen_status.getD "idle"

/-- The `progress` field a poll of the current state returns. -/
def progressView (c : Config) : Nat :=
  ((curSess c).getD {}).gen_progress.getD 0

/-- The `error` field a poll of the current state returns. -/
def errorView (c : Config) : Option String :=
  ((curSess c).getD {}).gen_error

/-- The result sequence currently published under the session id. -/
def resultsView (c : Config) : Option (List (List Nat)) :=
  ((curSess c).getD {}).generated_images

/-- The state right after `/api/generate-multi-start` accepted a request
and spawned the thread, with the worker's line-231 capture already
resolved to the session dict `s` (which the handler just set to
`queued`/0/no-error): the worker is about to run line 233.  The window
between `t.start()` and line 231 is modelled by `xspawnConfig` below. -/
def spawnConfig (ext : Nat → Except String (List Nat)) (sid : String)
    (now : Int) (s : Session) : Config :=
  { ext := ext, sid := sid, now := now, d0 := s, d1 := {},
    storeTarget := some false, wpc := .init, images := [], calls := 0 }

/-- A configuration is a freshly spawned job: worker at its first
statement, the store pointing at the captured dict, job fields initialized
by the start handler, no results yet. -/
def startedFrom (c : Config) : Prop :=
  c.wpc = .init ∧ c.images = [] ∧ c.calls = 0 ∧
  c.storeTarget = some false ∧ c.d1 = {} ∧
  c.d0.gen_status = some "queued" ∧ c.d0.gen_progress = some 0 ∧
  c.d0.gen_error = none ∧ c.d0.generated_images = none ∧
  c.d0.approved_images = none

instance (c : Config) : Decidable (startedFrom c) := by
  unfold startedFrom; infer_instance

/-- Schedules made only of worker steps and polls. -/
def wpOnly (sched : List Act) : Prop :=
  ∀ a ∈ sched, a = Act.w ∨ a = Act.poll

instance (sched : List Act) : Decidable (wpOnly sched) := by
  unfold wpOnly; infer_instance

/-- Schedules that never remove the session entry. -/
def noRemove (sched : List Act) : Prop :=
  ∀ a ∈ sched, a ≠ Act.remove

instance (sched : List Act) : Decidable (noRemove sched) := by
  unfold noRemove; infer_instance

/-- A concrete external-call oracle that always succeeds. -/
def extOk : Nat → Except String (List Nat) := fun _ => Except.ok [7]

/-- A concrete session holding a captured image, style and base prompt. -/
def readySession : Session :=
  { captured_image := some [1], captured_mime := some "image/png",
    selected_style := some "cartoonize", selected_prompt := some "P" }

/-- A concrete freshly spawned job configuration. -/
def init0 : Config :=
  spawnConfig extOk "t" 1000 (api_generate_multi_start readySession []).1

theorem init0_started : startedFrom init0 := by decide

/-- run distributes over schedule concatenation. -/
theorem run_append (c : Config) (l1 l2 : List Act) :
    run c (l1 ++ l2) = run (run c l1) l2 := by
  simp [run, List.foldl_append]

theorem run_cons (c : Config) (a : Act) (l : List Act) :
    run c (a :: l) = run (astep c a) l := rfl

theorem run_nil (c : Config) : run c [] = c := rfl

/- ------------------------------------------------------------------ -/
/- View helper lemmas.                                                 -/
/- ------------------------------------------------------------------ -/

theorem statusView_d0 (c : Config) (hst : c.storeTarget = some false) :
    statusView c = c.d0.gen_status.getD "idle" := by
  simp [statusView, curSess, hst]

theorem statusView_d1 (c : Config) (hst : c.storeTarget = some true) :
    statusView c = c.d1.gen_status.getD "idle" := by
  simp [statusView, curSess, hst]

theorem statusView_gone (c : Config) (hst : c.storeTarget = none) :
    statusView c = "idle" := by
  simp [statusView, curSess, hst]

/- ------------------------------------------------------------------ -/
/- Claim C5: stickiness of terminal statuses.                          -/
/- ------------------------------------------------------------------ -/

/-- The terminal job statuses of the spec (`Done`/`Failed`/`Canceled`
are the strings `"done"`/`"error"`/`"canceled"` in the code). -/
def terminalStatus (s : String) : Prop :=
  s = "done" ∨ s = "error" ∨ s = "canceled"

/-- Inductive invariant for terminal-status stickiness: the worker is past
the initial `store["gen_status"] = "running"` write, and the status a poll
would see is neither `"queued"` nor `"running"`. -/
def StickyInv (c : Config) : Prop :=
  c.wpc ≠ .init ∧ statusView c ≠ "queued" ∧ statusView c ≠ "running"



theorem ensureSid_present (c : Config) (b : Bool) (hst : c.storeTarget = some b) :
    ensureSid c = c := by
  unfold ensureSid; rw [hst]

theorem ensureSid_gone (c : Config) (hst : c.storeTarget = none) :
    ensureSid c = { c with d1 := {}, storeTarget := some true } := by
  unfold ensureSid; rw [hst]

theorem setCanceled_d0 (c : Config) (hst : c.storeTarget = some false) :
    setCanceled c = { c with d0 := { c.d0 with gen_status := some "canceled" } } := by
  unfold setCanceled; rw [hst]

theorem setCanceled_d1 (c : Config) (hst : c.storeTarget = some true) :
    setCanceled c = { c with d1 := { c.d1 with gen_status := some "canceled" } } := by
  unfold setCanceled; rw [hst]

theorem statusView_congr (c2 c : Config) (hst : c2.storeTarget = c.storeTarget)
    (h0 : c2.d0.gen_status = c.d0.gen_status)
    (h1 : c2.d1.gen_status = c.d1.gen_status) :
    statusView c2 = statusView c := by
  unfold statusView curSess
  rw [hst]
  cases c.storeTarget with
  | none => rfl
  | some b => cases b <;> simp [h0, h1]

theorem wstep_wpc_ne_init (c : Config) (h : c.wpc ≠ .init) :
    (wstep c).wpc ≠ .init := by
  cases hw : c.wpc with
  | init => exact absurd hw h
  | check i => simp only [wstep, hw]; split <;> simp
  | call i => cases hext : c.ext i <;> simp [wstep, hw, hext]
  | prog i =>
      simp only [wstep, hw]
      cases hst : c.storeTarget with
      | none => simp
      | some b =>
          cases b with
          | false =>
              show ¬(if i + 1 < 4 then WPC.check (i + 1) else WPC.publish) = WPC.init
              split <;> simp
          | true =>
              show ¬(if i + 1 < 4 then WPC.check (i + 1) else WPC.publish) = WPC.init
              split <;> simp
  | publish => simp [wstep, hw]
  | finish => simp [wstep, hw]
  | fail msg => simp [wstep, hw]
  | halted => simp [wstep, hw]

/-- A worker step either leaves the polled status unchanged or sets it to
`"done"` (line 303) or `"error"` (line 307) — provided the worker is past
its initial `"running"` write. -/
theorem statusView_wstep (c : Config) (h : c.wpc ≠ .init) :
    statusView (wstep c) = statusView c ∨
    statusView (wstep c) = "done" ∨ statusView (wstep c) = "error" := by
  cases hw : c.wpc with
  | init => exact absurd hw h
  | check i =>
      left
      simp only [wstep, hw]
      split
      · exact statusView_congr _ _ rfl rfl rfl
      · exact statusView_congr _ _ rfl rfl rfl
  | call i =>
      left
      simp only [wstep, hw]
      cases hext : c.ext i with
      | ok b => exact statusView_congr _ _ rfl rfl rfl
      | error m => exact statusView_congr _ _ rfl rfl rfl
  | prog i =>
      left
      simp only [wstep, hw]
      cases hst : c.storeTarget with
      | none => exact statusView_congr _ _ (by rw [hst]) rfl rfl
      | some b =>
          cases b with
          | false => exact statusView_congr _ _ (by rw [hst]) rfl rfl
          | true => exact statusView_congr _ _ (by rw [hst]) rfl rfl
  | publish =>
      left
      simp only [wstep, hw]
      exact statusView_congr _ _ rfl rfl rfl
  | finish =>
      simp only [wstep, hw]
      cases hst : c.storeTarget with
      | none => left; simp [statusView, curSess, hst]
      | some b =>
          cases b with
          | false => right; left; simp [statusView, curSess, hst]
          | true => left; simp [statusView, curSess, hst]
  | fail msg =>
      simp only [wstep, hw]
      cases hst : c.storeTarget with
      | none => left; simp [statusView, curSess, hst]
      | some b =>
          cases b with
          | false => right; right; simp [statusView, curSess, hst]
          | true => left; simp [statusView, curSess, hst]
  | halted =>
      left
      simp only [wstep, hw]

theorem astep_cancel_wpc (c : Config) : (astep c Act.cancel).wpc = c.wpc := by
  show (setCanceled (ensureSid c)).wpc = c.wpc
  cases hst : c.storeTarget with
  | none =>
      rw [ensureSid_gone c hst, setCanceled_d1 _ (by rfl)]
  | some b =>
      rw [ensureSid_present c b hst]
      cases b with
      | false => rw [setCanceled_d0 c hst]
      | true => rw [setCanceled_d1 c hst]

theorem astep_poll_wpc (c : Config) : (astep c Act.poll).wpc = c.wpc := by
  show (ensureSid c).wpc = c.wpc
  cases hst : c.storeTarget with
  | none => rw [ensureSid_gone c hst]
  | some b => rw [ensureSid_present c b hst]

/-- `/api/gen-cancel` always makes the polled status `"canceled"`: `get_sid`
ensures the entry exists, then line 370 writes the flag into it. -/
theorem statusView_cancel (c : Config) :
    statusView (astep c Act.cancel) = "canceled" := by
  show statusView (setCanceled (ensureSid c)) = "canceled"
  cases hst : c.storeTarget with
  | none =>
      rw [ensureSid_gone c hst, setCanceled_d1 _ (by rfl)]
      simp [statusView, curSess]
  | some b =>
      rw [ensureSid_present c b hst]
      cases b with
      | false => rw [setCanceled_d0 c hst]; simp [statusView, curSess, hst]
      | true => rw [setCanceled_d1 c hst]; simp [statusView, curSess, hst]

theorem statusView_poll (c : Config) :
    statusView (astep c Act.poll) = "idle" ∨
    statusView (astep c Act.poll) = statusView c := by
  show statusView (ensureSid c) = "idle" ∨ statusView (ensureSid c) = statusView c
  cases hst : c.storeTarget with
  | none =>
      left
      rw [ensureSid_gone c hst]
      simp [statusView, curSess]
  | some b =>
      right
      rw [ensureSid_present c b hst]

theorem statusView_remove (c : Config) :
    statusView (astep c Act.remove) = "idle" := by
  simp [astep, statusView, curSess]

theorem stickyInv_astep (c : Config) (a : Act) (h : StickyInv c) :
    StickyInv (astep c a) := by
  obtain ⟨h1, h2, h3⟩ := h
  cases a with
  | w =>
      show StickyInv (wstep c)
      have hne := wstep_wpc_ne_init c h1
      rcases statusView_wstep c h1 with hv | hv | hv
      · exact ⟨hne, by rw [hv]; exact h2, by rw [hv]; exact h3⟩
      · exact ⟨hne, by rw [hv]; decide, by rw [hv]; decide⟩
      · exact ⟨hne, by rw [hv]; decide, by rw [hv]; decide⟩
  | cancel =>
      refine ⟨?_, ?_, ?_⟩
      · rw [astep_cancel_wpc]; exact h1
      · rw [statusView_cancel]; decide
      · rw [statusView_cancel]; decide
  | poll =>
      refine ⟨?_, ?_, ?_⟩
      · rw [astep_poll_wpc]; exact h1
      · rcases statusView_poll c with hv | hv
        · rw [hv]; decide
        · rw [hv]; exact h2
      · rcases statusView_poll c with hv | hv
        · rw [hv]; decide
        · rw [hv]; exact h3
  | remove =>
      refine ⟨h1, ?_, ?_⟩ <;> rw [statusView_remove c] <;> decide

theorem stickyInv_run (c : Config) (sched : List Act) (h : StickyInv c) :
    StickyInv (run c sched) := by
  induction sched generalizing c with
  | nil => exact h
  | cons a l ih => exact ih (astep c a) (stickyInv_astep c a h)

/-- Claim C5 as stated: once a poll observes a terminal status for a job,
no later poll of any continuation observes `"queued"` or `"running"`
again. -/
def claimC5Prop : Prop :=
  ∀ (c : Config) (sched1 sched2 : List Act), startedFrom c →
    terminalStatus (statusView (run c sched1)) →
    statusView (run c (sched1 ++ sched2)) ≠ "queued" ∧
    statusView (run c (sched1 ++ sched2)) ≠ "running"

/-- Claim C5 counterexample: a cancel that lands between the start handler
and the worker's first statement makes a poll observe the terminal
`"canceled"`, yet the worker's initial `store["gen_status"] = "running"`
write (line 233) then overwrites it, so the next poll observes `"running"`
for the same job instance. -/
theorem C5_terminal_not_sticky_counterexample : ¬ claimC5Prop := by
  intro h
  exact (h init0 [Act.cancel] [Act.w] init0_started
      (Or.inr (Or.inr (by decide)))).2 (by decide)

/-- Claim C5 (corrected): terminal statuses are sticky once the worker has
passed its initial status write — from any state whose worker is beyond
`init` and whose polled status is terminal (`"done"`/`"error"`/
`"canceled"`), no continuation of worker steps, cancels, polls or removals
ever shows `"queued"` or `"running"` again.  The lone exception, shown by
the counterexample, is a cancel landing before the worker's initial write,
which the worker overwrites with `"running"`. -/
theorem C5_terminal_sticky_after_init (c : Config) (sched : List Act)
    (hpc : c.wpc ≠ .init) (hterm : terminalStatus (statusView c)) :
    statusView (run c sched) ≠ "queued" ∧
    statusView (run c sched) ≠ "running" := by
  have hbase : StickyInv c := by
    refine ⟨hpc, ?_, ?_⟩ <;> rcases hterm with hv | hv | hv <;> rw [hv] <;> decide
  exact ⟨(stickyInv_run c sched hbase).2.1, (stickyInv_run c sched hbase).2.2⟩

/-- Claim C5 witness: a job canceled at its first checkpoint keeps showing
`"canceled"` over further worker steps and polls. -/
theorem C5_terminal_sticky_after_init_witness :
    statusView (run (run init0 [Act.w, Act.cancel]) [Act.w, Act.poll]) ≠ "queued" ∧
    statusView (run (run init0 [Act.w, Act.cancel]) [Act.w, Act.poll]) ≠ "running" :=
  C5_terminal_sticky_after_init (run init0 [Act.w, Act.cancel]) [Act.w, Act.poll]
    (by decide) (Or.inr (Or.inr (by decide)))

/- ------------------------------------------------------------------ -/
/- Claim C2: cancellation semantics.                                   -/
/- ------------------------------------------------------------------ -/

/-- Inductive invariant after a cancel has been written and the worker sits
at the checkpoint of step `i`: the store still points at the captured dict,
the status flag stays `"canceled"`, no results are published, and the
external-call count stays frozen at `n`. -/
def CancelWait (i n : Nat) (c : Config) : Prop :=
  c.storeTarget = some false ∧ (c.wpc = .check i ∨ c.wpc = .halted) ∧
  c.d0.gen_status = some "canceled" ∧ c.d0.generated_images = none ∧
  c.calls = n

theorem cancelWait_astep (i n : Nat) (c : Config) (a : Act)
    (ha : a ≠ Act.remove) (h : CancelWait i n c) :
    CancelWait i n (astep c a) := by
  obtain ⟨h1, h2, h3, h4, h5⟩ := h
  cases a with
  | w =>
      show CancelWait i n (wstep c)
      rcases h2 with h2 | h2
      · simp only [wstep, h2, h1, h3, reduceIte]
        exact ⟨rfl, Or.inr rfl, h3, h4, h5⟩
      · simp only [wstep, h2]
        exact ⟨h1, Or.inr h2, h3, h4, h5⟩
  | cancel =>
      show CancelWait i n (setCanceled (ensureSid c))
      rw [ensureSid_present c false h1, setCanceled_d0 c h1]
      exact ⟨h1, h2, rfl, h4, h5⟩
  | poll =>
      show CancelWait i n (ensureSid c)
      rw [ensureSid_present c false h1]
      exact ⟨h1, h2, h3, h4, h5⟩
  | remove => exact absurd rfl ha

theorem cancelWait_run (i n : Nat) (c : Config) (sched : List Act)
    (hnr : noRemove sched) (h : CancelWait i n c) :
    CancelWait i n (run c sched) := by
  induction sched generalizing c with
  | nil => exact h
  | cons a l ih =>
      exact ih (astep c a)
        (fun x hx => hnr x (List.mem_cons_of_mem a hx))
        (cancelWait_astep i n c a (hnr a (List.mem_cons_self a l)) h)

/-- Claim C2 as stated (its "in particular" instance): a cancellation
requested right after the job is accepted and before any step starts
yields a canceled job with zero results ever published. -/
def claimC2Prop : Prop :=
  ∀ (c : Config) (sched : List Act), startedFrom c →
    (∀ x ∈ sched, x = Act.w) →
    resultsView (run c (Act.cancel :: sched)) = none ∧
    ((run c (Act.cancel :: sched)).wpc = .halted →
      statusView (run c (Act.cancel :: sched)) = "canceled")

/-- Claim C2 counterexample: a cancel issued before the worker's first
statement is overwritten by `store["gen_status"] = "running"` (line 233);
the worker never observes it, runs all four steps, publishes four results
and finishes `"done"`. -/
theorem C2_lost_cancel_counterexample : ¬ claimC2Prop := by
  intro h
  exact absurd
    (h init0 (List.replicate 15 Act.w) init0_started (by decide)).1
    (by decide)

/-- Claim C2 (corrected): the cancellation flag is observed only at the
per-step checkpoints (line 246).  If the flag is written while the worker
sits at the checkpoint of step `i` — i.e. after the initial `"running"`
write and before step `i` dispatches — then no further external call is
dispatched, no results are ever published, and the status stays
`"canceled"` under any continuation that does not remove the session.
(Cancels landing before the initial write, or after the final step's
dispatch, can be lost: the job then completes `"done"` with results, as
the counterexample shows.) -/
theorem C2_cancel_at_checkpoint (c : Config) (i : Nat) (sched : List Act)
    (hwpc : c.wpc = .check i) (hst : c.storeTarget = some false)
    (hres : c.d0.generated_images = none) (hnr : noRemove sched) :
    statusView (run (astep c Act.cancel) sched) = "canceled" ∧
    resultsView (run (astep c Act.cancel) sched) = none ∧
    (run (astep c Act.cancel) sched).calls = c.calls := by
  have hbase : CancelWait i c.calls (astep c Act.cancel) := by
    show CancelWait i c.calls (setCanceled (ensureSid c))
    rw [ensureSid_present c false hst, setCanceled_d0 c hst]
    exact ⟨hst, Or.inl hwpc, rfl, hres, rfl⟩
  obtain ⟨e1, e2, e3, e4, e5⟩ := cancelWait_run i c.calls _ sched hnr hbase
  refine ⟨?_, ?_, e5⟩
  · rw [statusView_d0 _ e1, e3]; rfl
  · simp [resultsView, curSess, e1, e4]

/-- Claim C2 witness: cancel observed at the first checkpoint halts the
job as `"canceled"`, with no results and no further external calls. -/
theorem C2_cancel_at_checkpoint_witness :
    statusView (run (astep (run init0 [Act.w]) Act.cancel) [Act.w, Act.w]) = "canceled" ∧
    resultsView (run (astep (run init0 [Act.w]) Act.cancel) [Act.w, Act.w]) = none ∧
    (run (astep (run init0 [Act.w]) Act.cancel) [Act.w, Act.w]).calls =
      (run init0 [Act.w]).calls :=
  C2_cancel_at_checkpoint (run init0 [Act.w]) 0 [Act.w, Act.w]
    (by decide) (by decide) (by decide) (by decide)

/- ------------------------------------------------------------------ -/
/- Claims C1 and C4: the results invariant and removal behaviour.      -/
/- ------------------------------------------------------------------ -/

/-- The session holds a published result sequence of exactly four
images. -/
def results4 (s : Session) : Prop :=
  ∃ l, s.generated_images = some l ∧ l.length = 4

/-- Relation between the worker's position and its local `images_out`
list: one image is appended per completed call, and the loop index stays
below 4. -/
def imagesLenOk (c : Config) : Prop :=
  match c.wpc with
  | .init => c.images = []
  | .check i => c.images.length = i ∧ i < 4
  | .call i => c.images.length = i ∧ i < 4
  | .prog i => c.images.length = i + 1 ∧ i < 4
  | .publish => c.images.length = 4
  | .finish => True
  | .fail _ => True
  | .halted => True

/-- What can ever be true of a dict re-created under the sid after a
removal: the worker never publishes into it and never writes any status
into it; only `/api/gen-cancel` can set its status. -/
def orphanSafe (s : Session) : Prop :=
  s.generated_images = none ∧ s.approved_images = none ∧
  (s.gen_status = none ∨ s.gen_status = some "canceled")

/-- Global inductive invariant of the interleaved system, from a freshly
started job. -/
def InvAll (c : Config) : Prop :=
  imagesLenOk c ∧
  (c.d0.generated_images = none ∨ results4 c.d0) ∧
  (c.d0.approved_images = none ∨
    ∃ l, c.d0.approved_images = some l ∧ l.length = 4) ∧
  (c.d0.gen_status = some "done" → results4 c.d0) ∧
  (c.wpc = .finish → results4 c.d0) ∧
  orphanSafe c.d1

theorem invAll_astep (c : Config) (a : Act) (h : InvAll c) :
    InvAll (astep c a) := by
  obtain ⟨h1, h2, h3, h4, h5, h6⟩ := h
  cases a with
  | w =>
      show InvAll (wstep c)
      cases hw : c.wpc with
      | init =>
          simp only [imagesLenOk, hw] at h1
          simp only [wstep, hw]
          refine ⟨?_, h2, h3, ?_, ?_, h6⟩
          · simp [imagesLenOk, h1]
          · intro habs; simp at habs
          · intro habs; simp at habs
      | check i =>
          simp only [wstep, hw]
          split
          · refine ⟨?_, h2, h3, h4, ?_, h6⟩
            · simp [imagesLenOk]
            · intro habs; simp at habs
          · refine ⟨?_, h2, h3, h4, ?_, h6⟩
            · simp only [imagesLenOk, hw] at h1
              simpa [imagesLenOk] using h1
            · intro habs; simp at habs
      | call i =>
          simp only [imagesLenOk, hw] at h1
          simp only [wstep, hw]
          cases hext : c.ext i with
          | ok b =>
              refine ⟨?_, h2, h3, h4, ?_, h6⟩
              · simp [imagesLenOk, h1.1, h1.2]
              · intro habs; simp at habs
          | error m =>
              refine ⟨?_, h2, h3, h4, ?_, h6⟩
              · simp [imagesLenOk]
              · intro habs; simp at habs
      | prog i =>
          simp only [imagesLenOk, hw] at h1
          simp only [wstep, hw]
          cases hst : c.storeTarget with
          | none =>
              refine ⟨?_, h2, h3, h4, ?_, h6⟩
              · simp [imagesLenOk]
              · intro habs; simp at habs
          | some b =>
              cases b with
              | false =>
                  by_cases hlt : i + 1 < 4
                  · simp only [if_pos hlt]
                    refine ⟨?_, h2, h3, h4, ?_, h6⟩
                    · simp [imagesLenOk, h1.1, hlt]
                    · intro habs; simp at habs
                  · simp only [if_neg hlt]
                    refine ⟨?_, h2, h3, h4, ?_, h6⟩
                    · simp only [imagesLenOk, h1.1]
                      omega
                    · intro habs; simp at habs
              | true =>
                  by_cases hlt : i + 1 < 4
                  · simp only [if_pos hlt]
                    refine ⟨?_, h2, h3, h4, ?_, h6⟩
                    · simp [imagesLenOk, h1.1, hlt]
                    · intro habs; simp at habs
                  · simp only [if_neg hlt]
                    refine ⟨?_, h2, h3, h4, ?_, h6⟩
                    · simp only [imagesLenOk, h1.1]
                      omega
                    · intro habs; simp at habs
      | publish =>
          simp only [imagesLenOk, hw] at h1
          simp only [wstep, hw]
          refine ⟨?_, ?_, ?_, ?_, ?_, h6⟩
          · simp [imagesLenOk]
          · exact Or.inr ⟨c.images, rfl, h1⟩
          · exact Or.inr ⟨c.images, rfl, h1⟩
          · intro _; exact ⟨c.images, rfl, h1⟩
          · intro _; exact ⟨c.images, rfl, h1⟩
      | finish =>
          have h5f := h5 hw
          simp only [wstep, hw]
          refine ⟨?_, Or.inr h5f, h3, ?_, ?_, h6⟩
          · simp [imagesLenOk]
          · intro _; exact h5f
          · intro habs; simp at habs
      | fail msg =>
          simp only [wstep, hw]
          refine ⟨?_, h2, h3, ?_, ?_, h6⟩
          · simp [imagesLenOk]
          · intro habs; simp at habs
          · intro habs; simp at habs
      | halted =>
          simp only [wstep, hw]
          exact ⟨h1, h2, h3, h4, h5, h6⟩
  | cancel =>
      show InvAll (setCanceled (ensureSid c))
      cases hst : c.storeTarget with
      | none =>
          rw [ensureSid_gone c hst, setCanceled_d1 _ rfl]
          exact ⟨h1, h2, h3, h4, h5, ⟨rfl, rfl, Or.inr rfl⟩⟩
      | some b =>
          rw [ensureSid_present c b hst]
          cases b with
          | false =>
              rw [setCanceled_d0 c hst]
              refine ⟨h1, h2, h3, ?_, h5, h6⟩
              · intro habs; simp at habs
          | true =>
              rw [setCanceled_d1 c hst]
              exact ⟨h1, h2, h3, h4, h5, ⟨h6.1, h6.2.1, Or.inr rfl⟩⟩
  | poll =>
      show InvAll (ensureSid c)
      cases hst : c.storeTarget with
      | none =>
          rw [ensureSid_gone c hst]
          exact ⟨h1, h2, h3, h4, h5, ⟨rfl, rfl, Or.inl rfl⟩⟩
      | some b =>
          rw [ensureSid_present c b hst]
          exact ⟨h1, h2, h3, h4, h5, h6⟩
  | remove =>
      exact ⟨h1, h2, h3, h4, h5, h6⟩

theorem startedFrom_invAll (c : Config) (h : startedFrom c) : InvAll c := by
  obtain ⟨hp, him, _hc, _hst, hd1, hq, _hpr, _he, hg, ha⟩ := h
  refine ⟨?_, Or.inl hg, Or.inl ha, ?_, ?_, ?_⟩
  · simp [imagesLenOk, hp, him]
  · intro habs; rw [hq] at habs; simp at habs
  · intro habs; rw [hp] at habs; simp at habs
  · rw [hd1]; exact ⟨rfl, rfl, Or.inl rfl⟩

theorem invAll_run (c : Config) (sched : List Act) (h : InvAll c) :
    InvAll (run c sched) := by
  induction sched generalizing c with
  | nil => exact h
  | cons a l ih => exact ih (astep c a) (invAll_astep c a h)

/-- Claim C1 as stated: the published result sequence is absent or empty
whenever the status is not `"done"`, and has exactly four entries when it
is. -/
def claimC1Prop : Prop :=
  ∀ (c : Config) (sched : List Act) (s : Session), startedFrom c →
    curSess (run c sched) = some s →
    (s.gen_status ≠ some "done" →
      (s.generated_images = none ∨ s.generated_images = some [])) ∧
    (s.gen_status = some "done" → results4 s)

/-- Claim C1 counterexample: the worker publishes the four results (lines
299-302) one step before it writes `gen_status = "done"` (line 303), so
right after the publish step a poll sees status `"running"` with four
published results. -/
theorem C1_publish_before_done_counterexample : ¬ claimC1Prop := by
  intro h
  have h2 := (h init0 (List.replicate 14 Act.w)
      (run init0 (List.replicate 14 Act.w)).d0 init0_started rfl).1 (by decide)
  rcases h2 with h2 | h2 <;> exact absurd h2 (by decide)

/-- Claim C1 (corrected): under every interleaving the result sequence
under the session id is either absent or has exactly four entries — never
a partial count — and status `"done"` implies exactly four results.  The
claim's "absent while status is not Done" fails only in the window between
the worker's publish step and its status write, when four results coexist
with status `"running"` (see the counterexample). -/
theorem C1_results_all_or_nothing (c : Config) (sched : List Act)
    (s : Session) (hs : startedFrom c)
    (hcur : curSess (run c sched) = some s) :
    (s.generated_images = none ∨ results4 s) ∧
    (s.gen_status = some "done" → results4 s) := by
  obtain ⟨_h1, h2, _h3, h4, _h5, h6⟩ :=
    invAll_run c sched (startedFrom_invAll c hs)
  unfold curSess at hcur
  cases hst : (run c sched).storeTarget with
  | none => rw [hst] at hcur; simp at hcur
  | some b =>
      rw [hst] at hcur
      cases b with
      | false =>
          simp only [Option.some.injEq] at hcur
          subst hcur
          exact ⟨h2, h4⟩
      | true =>
          simp only [Option.some.injEq] at hcur
          subst hcur
          refine ⟨Or.inl h6.1, ?_⟩
          intro habs
          rcases h6.2.2 with hv | hv <;> rw [hv] at habs <;> simp at habs

/-- Claim C1 witness: a completed run has status `"done"` and exactly four
published results. -/
theorem C1_results_all_or_nothing_witness :
    ((run init0 (List.replicate 15 Act.w)).d0.generated_images = none ∨
      results4 (run init0 (List.replicate 15 Act.w)).d0) ∧
    ((run init0 (List.replicate 15 Act.w)).d0.gen_status = some "done" →
      results4 (run init0 (List.replicate 15 Act.w)).d0) :=
  C1_results_all_or_nothing init0 (List.replicate 15 Act.w)
    (run init0 (List.replicate 15 Act.w)).d0 init0_started rfl

/- ------------------------------------------------------------------ -/
/- Claim C3: failure of an external call.                              -/
/- ------------------------------------------------------------------ -/

theorem wstep_call_ok (c : Config) (j : Nat) (b : List Nat)
    (hw : c.wpc = .call j) (hext : c.ext j = Except.ok b) :
    wstep c =
      { c with
          images := c.images ++ [b],
          calls := c.calls + 1,
          wpc := .prog j } := by
  simp only [wstep, hw, hext]

theorem wstep_call_error (c : Config) (j : Nat) (m : String)
    (hw : c.wpc = .call j) (hext : c.ext j = Except.error m) :
    wstep c = { c with calls := c.calls + 1, wpc := .fail m } := by
  simp only [wstep, hw, hext]

/-- Inductive invariant for a run whose step `i` external call fails with
`msg` (all earlier calls succeed), under worker steps and polls only: the
worker never reaches `publish`/`finish`, dispatches at most `i + 1` calls,
publishes nothing, and on halting has recorded status `"error"` with the
provider's message verbatim. -/
def FailInv (i : Nat) (msg : String) (c : Config) : Prop :=
  c.storeTarget = some false ∧
  i < 4 ∧
  c.ext i = Except.error msg ∧
  (∀ j, j < i → (c.ext j).isOk = true) ∧
  c.d0.generated_images = none ∧
  c.d0.approved_images = none ∧
  c.d0.gen_status ≠ some "canceled" ∧
  c.calls ≤ i + 1 ∧
  (match c.wpc with
   | .init => c.calls = 0
   | .check j => j ≤ i ∧ c.calls = j
   | .call j => j ≤ i ∧ c.calls = j
   | .prog j => j < i ∧ c.calls = j + 1
   | .publish => False
   | .finish => False
   | .fail m => m = msg
   | .halted => c.d0.gen_status = some "error" ∧ c.d0.gen_error = some msg)

theorem failInv_astep (i : Nat) (msg : String) (c : Config) (a : Act)
    (ha : a = Act.w ∨ a = Act.poll) (h : FailInv i msg c) :
    FailInv i msg (astep c a) := by
  obtain ⟨h1, h2, h3, h4, h5, h6, h7, h8, h9⟩ := h
  rcases ha with rfl | rfl
  · show FailInv i msg (wstep c)
    cases hw : c.wpc with
    | init =>
        simp only [hw] at h9
        simp only [wstep, hw]
        refine ⟨h1, h2, h3, h4, h5, h6, ?_, h8, ?_⟩
        · simp
        · exact ⟨Nat.zero_le i, h9⟩
    | check j =>
        simp only [hw] at h9
        simp only [wstep, hw, h1]
        rw [if_neg h7]
        exact ⟨rfl, h2, h3, h4, h5, h6, h7, h8, ⟨h9.1, h9.2⟩⟩
    | call j =>
        simp only [hw] at h9
        cases hext : c.ext j with
        | ok b =>
            rw [wstep_call_ok c j b hw hext]
            rcases eq_or_lt_of_le h9.1 with hj | hj
            · rw [hj, h3] at hext
              simp at hext
            · refine ⟨h1, h2, h3, h4, h5, h6, h7, ?_, ?_⟩
              · show c.calls + 1 ≤ i + 1
                have := h9.2
                omega
              · exact ⟨hj, by show c.calls + 1 = j + 1; have := h9.2; omega⟩
        | error m =>
            rw [wstep_call_error c j m hw hext]
            rcases eq_or_lt_of_le h9.1 with hj | hj
            · rw [hj, h3] at hext
              simp only [Except.error.injEq] at hext
              refine ⟨h1, h2, h3, h4, h5, h6, h7, ?_, ?_⟩
              · show c.calls + 1 ≤ i + 1
                have := h9.2
                omega
              · exact hext.symm
            · exact absurd (h4 j hj) (by simp [hext, Except.isOk, Except.toBool])
    | prog j =>
        simp only [hw] at h9
        simp only [wstep, hw, h1]
        have hlt : j + 1 < 4 := by omega
        rw [if_pos hlt]
        refine ⟨rfl, h2, h3, h4, h5, h6, h7, h8, ?_⟩
        exact ⟨by omega, h9.2⟩
    | publish =>
        simp only [hw] at h9
    | finish =>
        simp only [hw] at h9
    | fail m =>
        simp only [hw] at h9
        simp only [wstep, hw]
        refine ⟨h1, h2, h3, h4, h5, h6, ?_, h8, ?_⟩
        · simp
        · exact ⟨rfl, by rw [h9]⟩
    | halted =>
        simp only [wstep, hw]
        exact ⟨h1, h2, h3, h4, h5, h6, h7, h8, h9⟩
  · show FailInv i msg (ensureSid c)
    rw [ensureSid_present c false h1]
    exact ⟨h1, h2, h3, h4, h5, h6, h7, h8, h9⟩

theorem failInv_run (i : Nat) (msg : String) (c : Config) (sched : List Act)
    (hwp : wpOnly sched) (h : FailInv i msg c) :
    FailInv i msg (run c sched) := by
  induction sched generalizing c with
  | nil => exact h
  | cons a l ih =>
      exact ih (astep c a)
        (fun x hx => hwp x (List.mem_cons_of_mem a hx))
        (failInv_astep i msg c a (hwp a (List.mem_cons_self a l)) h)

theorem startedFrom_failInv (c : Config) (i : Nat) (msg : String)
    (hs : startedFrom c) (hi : i < 4) (hext : c.ext i = Except.error msg)
    (hok : ∀ j, j < i → (c.ext j).isOk = true) : FailInv i msg c := by
  obtain ⟨hp, _him, hc, hst, _hd1, hq, _hpr, _he, hg, ha⟩ := hs
  refine ⟨hst, hi, hext, hok, hg, ha, ?_, ?_, ?_⟩
  · rw [hq]; simp
  · rw [hc]; omega
  · simp only [hp]
    exact hc

/-- Claim C3 (confirmed): if the external transform call of step `i` fails
with message `msg` (earlier steps succeeding), then under any schedule of
worker steps and polls the job dispatches no external call beyond step
`i`, never publishes any result sequence, and once the worker has halted a
poll retrieves status `"error"` with the provider's error text verbatim. -/
theorem C3_failed_step_terminates (c : Config) (i : Nat) (msg : String)
    (sched : List Act) (hs : startedFrom c) (hwp : wpOnly sched) (hi : i < 4)
    (hext : c.ext i = Except.error msg)
    (hok : ∀ j, j < i → (c.ext j).isOk = true) :
    (run c sched).calls ≤ i + 1 ∧
    resultsView (run c sched) = none ∧
    (run c sched).d0.approved_images = none ∧
    ((run c sched).wpc = .halted →
      statusView (run c sched) = "error" ∧
      errorView (run c sched) = some msg) := by
  obtain ⟨e1, _e2, _e3, _e4, e5, e6, _e7, e8, e9⟩ :=
    failInv_run i msg c sched hwp (startedFrom_failInv c i msg hs hi hext hok)
  refine ⟨e8, ?_, e6, ?_⟩
  · simp [resultsView, curSess, e1, e5]
  · intro hh
    simp only [hh] at e9
    refine ⟨?_, ?_⟩
    · rw [statusView_d0 _ e1, e9.1]; rfl
    · simp [errorView, curSess, e1, e9.2]

/-- A concrete oracle whose third call fails. -/
def extFail2 : Nat → Except String (List Nat) :=
  fun j => if j = 2 then Except.error "boom" else Except.ok [7]

/-- A freshly spawned job bound to the failing oracle. -/
def init2 : Config :=
  spawnConfig extFail2 "t" 1000 (api_generate_multi_start readySession []).1

/-- Claim C3 witness: with the third call failing, the run halts with
status `"error"`, the literal message `"boom"` retrievable by poll, three
dispatched calls, and nothing published. -/
theorem C3_failed_step_terminates_witness :
    (run init2 (List.replicate 12 Act.w)).calls ≤ 2 + 1 ∧
    resultsView (run init2 (List.replicate 12 Act.w)) = none ∧
    (run init2 (List.replicate 12 Act.w)).d0.approved_images = none ∧
    ((run init2 (List.replicate 12 Act.w)).wpc = .halted →
      statusView (run init2 (List.replicate 12 Act.w)) = "error" ∧
      errorView (run init2 (List.replicate 12 Act.w)) = some "boom") :=
  C3_failed_step_terminates init2 2 "boom" (List.replicate 12 Act.w)
    (by decide) (by decide) (by decide) rfl (by decide)

/- ------------------------------------------------------------------ -/
/- Claim C6: progress monotonicity.                                    -/
/- ------------------------------------------------------------------ -/

theorem progressAfter_eq (i : Nat) : progressAfter i = 25 * (i + 1) := by
  unfold progressAfter; omega

theorem progressView_congr (c2 c : Config) (hst : c2.storeTarget = c.storeTarget)
    (h0 : c2.d0.gen_progress = c.d0.gen_progress)
    (h1 : c2.d1.gen_progress = c.d1.gen_progress) :
    progressView c2 = progressView c := by
  unfold progressView curSess
  rw [hst]
  cases c.storeTarget with
  | none => rfl
  | some b => cases b <;> simp [h0, h1]

theorem progressView_of_d0 (c : Config) (p : Nat)
    (hst : c.storeTarget = some false) (hp : c.d0.gen_progress = some p) :
    progressView c = p := by
  simp [progressView, curSess, hst, hp]

theorem progressView_le_congr (c2 c : Config)
    (hst : c2.storeTarget = c.storeTarget)
    (h0 : c2.d0.gen_progress = c.d0.gen_progress)
    (h1 : c2.d1.gen_progress = c.d1.gen_progress) :
    progressView c ≤ progressView c2 :=
  (progressView_congr c2 c hst h0 h1).ge

theorem progressView_le_of_d0 (c2 c : Config) (p q : Nat)
    (h1 : c.storeTarget = some false) (h2 : c2.storeTarget = some false)
    (hp : c.d0.gen_progress = some p) (hq : c2.d0.gen_progress = some q)
    (hpq : p ≤ q) : progressView c ≤ progressView c2 := by
  rw [progressView_of_d0 c p h1 hp, progressView_of_d0 c2 q h2 hq]
  exact hpq

/-- Relation between the worker's position and the progress value it has
written so far (store pointing at the captured dict). -/
def ProgAt (c : Config) : Prop :=
  match c.wpc with
  | .init => c.d0.gen_progress = some 0
  | .check i => c.d0.gen_progress = some (25 * i) ∧ i < 4
  | .call i => c.d0.gen_progress = some (25 * i) ∧ i < 4
  | .prog i => c.d0.gen_progress = some (25 * i) ∧ i < 4
  | .publish => c.d0.gen_progress = some 100
  | .finish => c.d0.gen_progress = some 100
  | .fail _ => True
  | .halted => True

/-- Inductive invariant for progress monotonicity under worker steps and
polls. -/
def MonoInv (c : Config) : Prop :=
  c.storeTarget = some false ∧ ProgAt c ∧
  (c.d0.gen_status = some "done" →
    c.d0.gen_progress = some 100 ∧ c.wpc = .halted)

theorem monoInv_astep (c : Config) (a : Act) (ha : a = Act.w ∨ a = Act.poll)
    (h : MonoInv c) :
    MonoInv (astep c a) ∧ progressView c ≤ progressView (astep c a) := by
  obtain ⟨h1, h2, h3⟩ := h
  rcases ha with rfl | rfl
  · show MonoInv (wstep c) ∧ progressView c ≤ progressView (wstep c)
    cases hw : c.wpc with
    | init =>
        simp only [ProgAt, hw] at h2
        simp only [wstep, hw]
        refine ⟨⟨h1, ?_, ?_⟩, ?_⟩
        · exact ⟨rfl, by norm_num⟩
        · intro habs; simp at habs
        · exact progressView_le_of_d0 _ c 0 0 h1 h1 h2 rfl (le_refl 0)
    | check i =>
        simp only [ProgAt, hw] at h2
        simp only [wstep, hw]
        split
        · refine ⟨⟨h1, trivial, ?_⟩, ?_⟩
          · intro habs; exact ⟨(h3 habs).1, rfl⟩
          · exact progressView_le_congr _ c rfl rfl rfl
        · refine ⟨⟨h1, ⟨h2.1, h2.2⟩, ?_⟩, ?_⟩
          · intro habs; exact absurd (h3 habs).2 (by rw [hw]; simp)
          · exact progressView_le_congr _ c rfl rfl rfl
    | call i =>
        simp only [ProgAt, hw] at h2
        cases hext : c.ext i with
        | ok b =>
            rw [wstep_call_ok c i b hw hext]
            refine ⟨⟨h1, ⟨h2.1, h2.2⟩, ?_⟩, ?_⟩
            · intro habs; exact absurd (h3 habs).2 (by rw [hw]; simp)
            · exact progressView_le_congr _ c rfl rfl rfl
        | error m =>
            rw [wstep_call_error c i m hw hext]
            refine ⟨⟨h1, trivial, ?_⟩, ?_⟩
            · intro habs; exact absurd (h3 habs).2 (by rw [hw]; simp)
            · exact progressView_le_congr _ c rfl rfl rfl
    | prog i =>
        simp only [ProgAt, hw] at h2
        simp only [wstep, hw, h1]
        by_cases hlt : i + 1 < 4
        · rw [if_pos hlt]
          refine ⟨⟨rfl, ?_, ?_⟩, ?_⟩
          · exact ⟨by rw [progressAfter_eq], hlt⟩
          · intro habs; exact absurd (h3 habs).2 (by rw [hw]; simp)
          · exact progressView_le_of_d0 _ c (25 * i) (progressAfter i) h1 rfl
              h2.1 rfl (by rw [progressAfter_eq]; omega)
        · rw [if_neg hlt]
          have hi3 : i = 3 := by omega
          refine ⟨⟨rfl, ?_, ?_⟩, ?_⟩
          · show some (progressAfter i) = some 100
            rw [progressAfter_eq, hi3]
          · intro habs; exact absurd (h3 habs).2 (by rw [hw]; simp)
          · exact progressView_le_of_d0 _ c (25 * i) (progressAfter i) h1 rfl
              h2.1 rfl (by rw [progressAfter_eq]; omega)
    | publish =>
        simp only [ProgAt, hw] at h2
        simp only [wstep, hw]
        refine ⟨⟨h1, h2, ?_⟩, ?_⟩
        · intro habs; exact absurd (h3 habs).2 (by rw [hw]; simp)
        · exact progressView_le_congr _ c rfl rfl rfl
    | finish =>
        simp only [ProgAt, hw] at h2
        simp only [wstep, hw]
        refine ⟨⟨h1, trivial, ?_⟩, ?_⟩
        · intro _; exact ⟨h2, rfl⟩
        · exact progressView_le_congr _ c rfl rfl rfl
    | fail msg =>
        simp only [wstep, hw]
        refine ⟨⟨h1, trivial, ?_⟩, ?_⟩
        · intro habs; simp at habs
        · exact progressView_le_congr _ c rfl rfl rfl
    | halted =>
        simp only [wstep, hw]
        exact ⟨⟨h1, h2, h3⟩, le_refl _⟩
  · show MonoInv (ensureSid c) ∧ progressView c ≤ progressView (ensureSid c)
    rw [ensureSid_present c false h1]
    exact ⟨⟨h1, h2, h3⟩, le_refl _⟩

theorem monoInv_run (c : Config) (sched : List Act) (hwp : wpOnly sched)
    (h : MonoInv c) :
    MonoInv (run c sched) ∧ progressView c ≤ progressView (run c sched) := by
  induction sched generalizing c with
  | nil => exact ⟨h, le_refl _⟩
  | cons a l ih =>
      have hstep := monoInv_astep c a (hwp a (List.mem_cons_self a l)) h
      have hrest := ih (astep c a)
        (fun x hx => hwp x (List.mem_cons_of_mem a hx)) hstep.1
      exact ⟨hrest.1, le_trans hstep.2 hrest.2⟩

theorem startedFrom_monoInv (c : Config) (hs : startedFrom c) : MonoInv c := by
  obtain ⟨hp, _him, _hc, hst, _hd1, hq, hpr, _he, _hg, _ha⟩ := hs
  refine ⟨hst, ?_, ?_⟩
  · simp only [ProgAt, hp]
    exact hpr
  · intro habs; rw [hq] at habs; simp at habs

/-- Claim C6 as stated: during a run observed through worker steps and
polls, the progress value is non-decreasing, and it equals 100 exactly
when the status is `"done"`. -/
def claimC6Prop : Prop :=
  ∀ (c : Config) (sched : List Act), startedFrom c → wpOnly sched →
    (∀ sched2, wpOnly sched2 →
      progressView (run c sched) ≤ progressView (run c (sched ++ sched2))) ∧
    (progressView (run c sched) = 100 ↔ statusView (run c sched) = "done")

/-- Claim C6 counterexample: after the fourth step's progress write (line
296) the progress is already 100, but the status only becomes `"done"` two
worker steps later (line 303) — in between, a poll sees progress 100 with
status `"running"`. -/
theorem C6_progress_100_before_done_counterexample : ¬ claimC6Prop := by
  intro h
  exact absurd
    ((h init0 (List.replicate 13 Act.w) init0_started (by decide)).2.mp
      (by decide))
    (by decide)

/-- Claim C6 (corrected): under worker steps and polls the observed
progress sequence is monotonically non-decreasing, and status `"done"`
implies progress 100.  The converse fails: progress reaches 100 after the
fourth external call's progress write, two worker steps before the status
write, so a poll can observe progress 100 while the status is still
`"running"` (see the counterexample). -/
theorem C6_progress_monotone (c : Config) (sched1 sched2 : List Act)
    (hs : startedFrom c) (h1 : wpOnly sched1) (h2 : wpOnly sched2) :
    progressView (run c sched1) ≤ progressView (run c (sched1 ++ sched2)) ∧
    (statusView (run c sched1) = "done" →
      progressView (run c sched1) = 100) := by
  have hm1 := monoInv_run c sched1 h1 (startedFrom_monoInv c hs)
  constructor
  · rw [run_append]
    exact (monoInv_run (run c sched1) sched2 h2 hm1.1).2
  · intro hdone
    obtain ⟨e1, _e2, e3⟩ := hm1.1
    rw [statusView_d0 _ e1] at hdone
    have hsd : (run c sched1).d0.gen_status = some "done" := by
      cases hv : (run c sched1).d0.gen_status with
      | none => rw [hv] at hdone; simp at hdone
      | some v =>
          rw [hv] at hdone
          simp only [Option.getD_some] at hdone
          rw [hdone]
    exact progressView_of_d0 _ 100 e1 (e3 hsd).1

/-- Claim C6 witness: a prefix of a successful run (two steps done,
progress 50) never regresses over the rest of the run. -/
theorem C6_progress_monotone_witness :
    progressView (run init0 (List.replicate 7 Act.w)) ≤
      progressView (run init0 (List.replicate 7 Act.w ++ List.replicate 8 Act.w)) ∧
    (statusView (run init0 (List.replicate 7 Act.w)) = "done" →
      progressView (run init0 (List.replicate 7 Act.w)) = 100) :=
  C6_progress_monotone init0 (List.replicate 7 Act.w) (List.replicate 8 Act.w)
    init0_started (by decide) (by decide)

/- ------------------------------------------------------------------ -/
/- Extended model with the line-231 capture step (claim C4).           -/
/-                                                                     -/
/- `_run_multi_generation` runs `store = STORE.get(sid, {})` (line 231) -/
/- as the worker thread's first statement, after `t.start()` (line 346) -/
/- has already returned to the request handler.  A removal of the       -/
/- session entry can therefore land before the capture; if the id has   -/
/- been re-created by then, the worker captures the re-created dict and -/
/- runs the whole job inside it.  The extended model makes the capture  -/
/- itself a schedulable worker step.                                    -/
/- ------------------------------------------------------------------ -/

/-- Which dict the worker's local `store` variable holds once line 231
has run: the dict the start handler wrote (`d0`), the dict re-created
under the sid after a removal (`d1`), or the fresh `{}` default of
`STORE.get(sid, {})` when the sid was absent at capture time (`dg`),
which is never inserted into the store. -/
inductive WDict where
  | d0
  | d1
  | dg
deriving Repr, DecidableEq

/-- Worker program counter for the extended model: the constructors of
`WPC` plus `capture` for line 231. -/
inductive XWPC where
  | capture
  | init
  | check (i : Nat)
  | call (i : Nat)
  | prog (i : Nat)
  | publish
  | finish
  | fail (msg : String)
  | halted
deriving Repr, DecidableEq

/-- Global state of the extended model.  As `Config`, plus `dg` (the
worker's fresh capture default) and `wref`, the target of the worker's
captured reference; `wref` is meaningful only once `wpc` has passed
`capture`, which overwrites it. -/
structure XConfig where
  ext : Nat → Except String (List Nat)
  sid : String
  now : Int
  d0 : Session
  d1 : Session
  dg : Session
  wref : WDict
  storeTarget : Option Bool
  wpc : XWPC
  images : List (List Nat)
  calls : Nat

/-- Write through the worker's captured reference. -/
def setWref (c : XConfig) (f : Session → Session) : XConfig :=
  match c.wref with
  | .d0 => { c with d0 := f c.d0 }
  | .d1 => { c with d1 := f c.d1 }
  | .dg => { c with dg := f c.dg }

/-- One atomic group of the worker thread in the extended model: as
`wstep`, except that the initial-status write, the publish, the
done-write and the except handler go through the captured reference
`wref`, and `capture` resolves that reference against the store's current
state (line 231). -/
def xwstep (c : XConfig) : XConfig :=
  match c.wpc with
  | .capture =>
      match c.storeTarget with
      | some false => { c with wref := .d0, wpc := .init }
      | some true => { c with wref := .d1, wpc := .init }
      | none => { c with dg := {}, wref := .dg, wpc := .init }
  | .init =>
      setWref { c with wpc := .check 0 } (fun s =>
        { s with
            gen_status := some "running",
            gen_progress := some 0,
            gen_error := none })
  | .check i =>
      if (match c.storeTarget with
          | none => (none : Option String)
          | some false => c.d0.gen_status
          | some true => c.d1.gen_status) = some "canceled" then
        { c with wpc := .halted }
      else
        { c with wpc := .call i }
  | .call i =>
      match c.ext i with
      | .ok b =>
          { c with
              images := c.images ++ [b],
              calls := c.calls + 1,
              wpc := .prog i }
      | .error msg => { c with calls := c.calls + 1, wpc := .fail msg }
  | .prog i =>
      match c.storeTarget with
      | none => { c with wpc := .fail (keyErrorText c.sid) }
      | some false =>
          { c with
              d0 := { c.d0 with gen_progress := some (progressAfter i) },
              wpc := if i + 1 < 4 then .check (i + 1) else .publish }
      | some true =>
          { c with
              d1 := { c.d1 with gen_progress := some (progressAfter i) },
              wpc := if i + 1 < 4 then .check (i + 1) else .publish }
  | .publish =>
      setWref { c with wpc := .finish } (fun s =>
        { s with
            generated_images := some c.images,
            generated_mime := some "image/png",
            approved_images := some c.images,
            approved_mime := some "image/png" })
  | .finish =>
      setWref { c with wpc := .halted } (fun s =>
        { s with gen_status := some "done", ts := some c.now })
  | .fail msg =>
      setWref { c with wpc := .halted } (fun s =>
        { s with gen_status := some "error", gen_error := some msg })
  | .halted => c

/-- `get_sid` in the extended model. -/
def xensureSid (c : XConfig) : XConfig :=
  match c.storeTarget with
  | none => { c with d1 := {}, storeTarget := some true }
  | some _ => c

/-- `/api/gen-cancel`'s flag write in the extended model. -/
def xsetCanceled (c : XConfig) : XConfig :=
  match c.storeTarget with
  | none => c
  | some false => { c with d0 := { c.d0 with gen_status := some "canceled" } }
  | some true => { c with d1 := { c.d1 with gen_status := some "canceled" } }

/-- Interleaved small step of the extended model. -/
def xastep (c : XConfig) : Act → XConfig
  | .w => xwstep c
  | .cancel => xsetCanceled (xensureSid c)
  | .poll => xensureSid c
  | .remove => { c with storeTarget := none }

/-- Run a schedule of interleaved actions in the extended model. -/
def xrun (c : XConfig) (sched : List Act) : XConfig := sched.foldl xastep c

/-- The dict currently stored under the session id, if any. -/
def xcurSess (c : XConfig) : Option Session :=
  match c.storeTarget with
  | none => none
  | some false => some c.d0
  | some true => some c.d1

/-- The state right after `/api/generate-multi-start` accepted a request
and spawned the thread: the thread has not yet executed line 231, so its
captured reference is still unresolved (`wref` is a dead placeholder until
the `capture` step overwrites it). -/
def xspawnConfig (ext : Nat → Except String (List Nat)) (sid : String)
    (now : Int) (s : Session) : XConfig :=
  { ext := ext, sid := sid, now := now, d0 := s, d1 := {}, dg := {},
    wref := .d0, storeTarget := some false, wpc := .capture, images := [],
    calls := 0 }

/-- A configuration is a freshly spawned job in the extended model: the
worker is about to run line 231, the store holds the dict the start
handler initialized. -/
def xstartedFrom (c : XConfig) : Prop :=
  c.wpc = .capture ∧ c.images = [] ∧ c.calls = 0 ∧
  c.storeTarget = some false ∧ c.d1 = {} ∧ c.dg = {} ∧
  c.d0.gen_status = some "queued" ∧ c.d0.gen_progress = some 0 ∧
  c.d0.gen_error = none ∧ c.d0.generated_images = none ∧
  c.d0.approved_images = none

instance (c : XConfig) : Decidable (xstartedFrom c) := by
  unfold xstartedFrom; infer_instance

/-- A concrete freshly spawned job in the extended model. -/
def xinit0 : XConfig :=
  xspawnConfig extOk "t" 1000 (api_generate_multi_start readySession []).1

theorem xinit0_started : xstartedFrom xinit0 := by decide

theorem xensureSid_present (c : XConfig) (b : Bool)
    (hst : c.storeTarget = some b) : xensureSid c = c := by
  unfold xensureSid; rw [hst]

theorem xensureSid_gone (c : XConfig) (hst : c.storeTarget = none) :
    xensureSid c = { c with d1 := {}, storeTarget := some true } := by
  unfold xensureSid; rw [hst]

theorem xsetCanceled_d0 (c : XConfig) (hst : c.storeTarget = some false) :
    xsetCanceled c =
      { c with d0 := { c.d0 with gen_status := some "canceled" } } := by
  unfold xsetCanceled; rw [hst]

theorem xsetCanceled_d1 (c : XConfig) (hst : c.storeTarget = some true) :
    xsetCanceled c =
      { c with d1 := { c.d1 with gen_status := some "canceled" } } := by
  unfold xsetCanceled; rw [hst]

/-- Inductive invariant once the worker has captured the original dict
(`wref = d0`, past the capture step): the dict re-created under the sid
after a removal never receives results or a worker-written status — only
its progress field can be touched by the worker, and only an explicit
cancel can write its status. -/
def OrphanInv (c : XConfig) : Prop :=
  c.wref = WDict.d0 ∧ c.wpc ≠ .capture ∧ orphanSafe c.d1

theorem xorphanInv_astep (c : XConfig) (a : Act) (h : OrphanInv c) :
    OrphanInv (xastep c a) := by
  obtain ⟨h1, h2, h3⟩ := h
  cases a with
  | w =>
      show OrphanInv (xwstep c)
      cases hw : c.wpc with
      | capture => exact absurd hw h2
      | init =>
          simp only [xwstep, hw, setWref, h1]
          exact ⟨rfl, by simp, h3⟩
      | check i =>
          simp only [xwstep, hw]
          split
          · exact ⟨h1, by simp, h3⟩
          · exact ⟨h1, by simp, h3⟩
      | call i =>
          simp only [xwstep, hw]
          cases hext : c.ext i with
          | ok b => exact ⟨h1, by simp, h3⟩
          | error m => exact ⟨h1, by simp, h3⟩
      | prog i =>
          simp only [xwstep, hw]
          cases hst : c.storeTarget with
          | none => exact ⟨h1, by simp, h3⟩
          | some b =>
              cases b with
              | false =>
                  exact ⟨h1,
                    by
                      show ¬(if i + 1 < 4 then XWPC.check (i + 1)
                             else XWPC.publish) = XWPC.capture
                      split <;> simp,
                    h3⟩
              | true =>
                  exact ⟨h1,
                    by
                      show ¬(if i + 1 < 4 then XWPC.check (i + 1)
                             else XWPC.publish) = XWPC.capture
                      split <;> simp,
                    ⟨h3.1, h3.2.1, h3.2.2⟩⟩
      | publish =>
          simp only [xwstep, hw, setWref, h1]
          exact ⟨rfl, by simp, h3⟩
      | finish =>
          simp only [xwstep, hw, setWref, h1]
          exact ⟨rfl, by simp, h3⟩
      | fail msg =>
          simp only [xwstep, hw, setWref, h1]
          exact ⟨rfl, by simp, h3⟩
      | halted =>
          simp only [xwstep, hw]
          exact ⟨h1, h2, h3⟩
  | cancel =>
      show OrphanInv (xsetCanceled (xensureSid c))
      cases hst : c.storeTarget with
      | none =>
          rw [xensureSid_gone c hst, xsetCanceled_d1 _ rfl]
          exact ⟨h1, h2, ⟨rfl, rfl, Or.inr rfl⟩⟩
      | some b =>
          rw [xensureSid_present c b hst]
          cases b with
          | false =>
              rw [xsetCanceled_d0 c hst]
              exact ⟨h1, h2, h3⟩
          | true =>
              rw [xsetCanceled_d1 c hst]
              exact ⟨h1, h2, ⟨h3.1, h3.2.1, Or.inr rfl⟩⟩
  | poll =>
      show OrphanInv (xensureSid c)
      cases hst : c.storeTarget with
      | none =>
          rw [xensureSid_gone c hst]
          exact ⟨h1, h2, ⟨rfl, rfl, Or.inl rfl⟩⟩
      | some b =>
          rw [xensureSid_present c b hst]
          exact ⟨h1, h2, h3⟩
  | remove =>
      exact ⟨h1, h2, h3⟩

theorem xorphanInv_run (c : XConfig) (sched : List Act) (h : OrphanInv c) :
    OrphanInv (xrun c sched) := by
  induction sched generalizing c with
  | nil => exact h
  | cons a l ih => exact ih (xastep c a) (xorphanInv_astep c a h)

/-- Claim C4 as stated: once the session entry is removed, the background
task treats the absence as an implicit cancellation — it performs no
further mutation of state under that session id and never publishes
results for it, so a session found under the id afterwards (re-created
empty by `get_sid`) can only be the fresh empty one when only worker steps
and polls follow. -/
def claimC4Prop : Prop :=
  ∀ (c : XConfig) (sched1 sched2 : List Act) (s : Session),
    xstartedFrom c → wpOnly sched2 →
    xcurSess (xrun c (sched1 ++ Act.remove :: sched2)) = some s →
    s = {}

/-- Claim C4 counterexample: the task holds the dict captured by
`store = STORE.get(sid, {})` (line 231) instead of re-resolving the
session before each mutation, and the cancel checkpoint treats a missing
session as "not canceled".  If the entry is removed and re-created before
the thread reaches line 231, the worker captures the re-created dict and
runs the entire job in it: the session under the removed id ends up with
status `"done"` and four published results. -/
theorem C4_mutation_after_removal_counterexample : ¬ claimC4Prop := by
  intro h
  have h2 := h xinit0 [] (Act.poll :: List.replicate 16 Act.w)
      (xrun xinit0 ([] ++ Act.remove :: (Act.poll :: List.replicate 16 Act.w))).d1
      xinit0_started (by decide) rfl
  exact absurd h2 (by decide)

/-- Claim C4 (corrected): the task re-resolves the session by id only at
the per-step cancel checkpoint (line 246) and the progress write
(line 296); every other mutation goes through the dict captured at
line 231.  Provided the worker's capture ran while the original entry was
still present (here: the capture is the first step after the spawn), a
session later removed and re-created under the same id never receives
results or a worker-written status — it has no
`generated_images`/`approved_images` and its status is absent or
`"canceled"` (set only by an explicit cancel); only its progress field can
still be mutated by the task.  Absence is not treated as a cancellation at
the checkpoint (the read yields `None`), and if the removal and
re-creation precede the capture, the worker adopts the re-created dict and
publishes a full run into it, as the counterexample shows. -/
theorem C4_no_publish_after_removal (c : XConfig) (sched : List Act)
    (s : Session) (hs : xstartedFrom c)
    (hT : (xrun (xastep c Act.w) sched).storeTarget = some true)
    (hcur : xcurSess (xrun (xastep c Act.w) sched) = some s) :
    s.generated_images = none ∧ s.approved_images = none ∧
    (s.gen_status = none ∨ s.gen_status = some "canceled") := by
  obtain ⟨hp, _him, _hc, hst, hd1, _hdg, _hq, _hpr, _he, _hg, _ha⟩ := hs
  have hbase : OrphanInv (xastep c Act.w) := by
    show OrphanInv (xwstep c)
    simp only [xwstep, hp, hst]
    refine ⟨rfl, by simp, ?_⟩
    show orphanSafe c.d1
    rw [hd1]
    exact ⟨rfl, rfl, Or.inl rfl⟩
  have hinv := xorphanInv_run (xastep c Act.w) sched hbase
  unfold xcurSess at hcur
  rw [hT] at hcur
  simp only [Option.some.injEq] at hcur
  subst hcur
  exact hinv.2.2

/-- Claim C4 witness: with the capture done before the removal, a session
removed mid-run and re-created by a poll carries no results and no
worker-written status (only its progress field was touched by the task's
`STORE[sid]` write). -/
theorem C4_no_publish_after_removal_witness :
    (xrun (xastep xinit0 Act.w) [Act.w, Act.w, Act.w, Act.remove, Act.poll, Act.w]).d1.generated_images = none ∧
    (xrun (xastep xinit0 Act.w) [Act.w, Act.w, Act.w, Act.remove, Act.poll, Act.w]).d1.approved_images = none ∧
    ((xrun (xastep xinit0 Act.w) [Act.w, Act.w, Act.w, Act.remove, Act.poll, Act.w]).d1.gen_status = none ∨
      (xrun (xastep xinit0 Act.w) [Act.w, Act.w, Act.w, Act.remove, Act.poll, Act.w]).d1.gen_status = some "canceled") :=
  C4_no_publish_after_removal xinit0
    [Act.w, Act.w, Act.w, Act.remove, Act.poll, Act.w]
    (xrun (xastep xinit0 Act.w) [Act.w, Act.w, Act.w, Act.remove, Act.poll, Act.w]).d1
    xinit0_started (by decide) rfl
